import Mathlib

/-!
# Verification of the datapace-agent scheduler + uploader core

Shallow embedding of the retry/backoff logic of `src/uploader/mod.rs` and the
periodic loop of `src/scheduler/mod.rs`, with theorems about the claims of the
specification.  Durations are modelled in whole seconds (the uploader only ever
handles whole-second delays) except for the scheduler timeline model, which
uses milliseconds.
-/

namespace Datapace

/-- Errors of the uploader, mirroring `enum UploaderError` in
`src/uploader/mod.rs`.  `RequestError` stands for a transport-level
`reqwest::Error`; messages are kept as strings. -/
inductive UploaderError where
  | RequestError (msg : String)
  | ServerError (status : Nat) (message : String)
  | RateLimited (retryAfter : Option Nat)
  | AuthError (message : String)
  | SerializationError (msg : String)
  | MaxRetriesExceeded
  deriving Repr, DecidableEq

/-- Configuration of the uploader, mirroring `struct UploaderConfig`.
`timeout` is in seconds. -/
structure UploaderConfig where
  endpoint : String
  api_key : String
  timeout : Nat
  max_retries : Nat
  compress : Bool
  deriving Repr, DecidableEq

/-- Source `UploaderConfig::new`: defaults of 30 s timeout, 3 retries, compression on. -/
def UploaderConfig.new (endpoint api_key : String) : UploaderConfig :=
  { endpoint := endpoint
    api_key := api_key
    timeout := 30
    max_retries := 3
    compress := true }

/-- An HTTP response as seen by `send_request`: numeric status, the raw
`Retry-After` header if present, and the body text if `response.text()`
succeeded (`unwrap_or_default` turns a failure into `""`). -/
structure HttpResponse where
  status : Nat
  retryAfterHeader : Option String
  body : Option String
  deriving Repr, DecidableEq

/-- The outcome of one network attempt: either the transport failed at
`.send().await?` (a `reqwest::Error`), or a response arrived. -/
inductive AttemptOutcome where
  | transportError (msg : String)
  | response (resp : HttpResponse)
  deriving Repr, DecidableEq

/-- Accumulate decimal digits; `none` as soon as a non-digit appears. -/
def decDigitsGo : List Char → Nat → Option Nat
  | [], acc => some acc
  | c :: cs, acc =>
    if c.isDigit then decDigitsGo cs (acc * 10 + (c.toNat - '0'.toNat)) else none

/-- Rust `str::parse::<u64>()` followed by `.ok()`: an optional leading `+`,
then one or more decimal digits, value below `2^64`. -/
def parse_u64 (s : String) : Option Nat :=
  let cs : List Char :=
    match s.data with
    | '+' :: rest => rest
    | cs => cs
  match cs with
  | [] => none
  | _ =>
    match decDigitsGo cs 0 with
    | some n => if n < 2 ^ 64 then some n else none
    | none => none

/-- The `Retry-After` extraction of `send_request`:
`headers.get("Retry-After").and_then(to_str).and_then(parse::<u64>)`,
yielding whole seconds. -/
def retryAfterSecs (r : HttpResponse) : Option Nat :=
  r.retryAfterHeader.bind parse_u64

/-- Source `Uploader::send_request`, `src/uploader/mod.rs` lines 135–177: the status
match.  `OK | CREATED | ACCEPTED` succeed; `UNAUTHORIZED | FORBIDDEN` give
`AuthError`; `TOO_MANY_REQUESTS` gives `RateLimited` with the parsed
`Retry-After`; everything else gives `ServerError` with status and body. -/
def send_request (o : AttemptOutcome) : Except UploaderError Unit :=
  match o with
  | .transportError m => .error (.RequestError m)
  | .response r =>
    match r.status with
    | 200 | 201 | 202 => .ok ()
    | 401 | 403 => .error (.AuthError (r.body.getD ""))
    | 429 => .error (.RateLimited (retryAfterSecs r))
    | _ => .error (.ServerError r.status (r.body.getD ""))

/-- An attempt outcome that `upload` retries: an error other than
`AuthError` (auth failures return immediately; successes stop the loop). -/
def isRetryableFailure (x : Except UploaderError Unit) : Bool :=
  match x with
  | .error (.AuthError _) => false
  | .error _ => true
  | .ok _ => false

/-- The server-supplied rate-limit delay of an attempt outcome, when the
outcome is `RateLimited` with a delay. -/
def rateLimitDelay (x : Except UploaderError Unit) : Option Nat :=
  match x with
  | .error (.RateLimited (some t)) => some t
  | _ => none

deriving instance DecidableEq for Except

/-- Observable trace of one `upload` call: how many requests were sent, the
delays slept (in seconds, in order, each one preceding a retry attempt), and
the returned result. -/
structure UploadTrace where
  requests : Nat
  sleeps : List Nat
  result : Except UploaderError Unit
  deriving Repr, DecidableEq

/-- The initial value of `retry_delay` in `upload`:
`Duration::from_secs(1)` at line 99. -/
def initialRetryDelaySecs : Nat := 1

/-- The retry loop of `Uploader::upload` (lines 101–130).  `o i` is the
outcome of attempt `i`; `attempt` is the current loop index, `remaining` the
number of iterations left (`max_retries + 1` at the top), `d` the current
`retry_delay`, `le` the `last_error` accumulator.  Each iteration with
`attempt > 0` first sleeps `d` and doubles it; a non-auth failure records the
error and, when it is a rate limit with a server delay, overwrites
`retry_delay` with that delay. -/
def uploadGo (o : Nat → AttemptOutcome) :
    Nat → Nat → Nat → Option UploaderError → UploadTrace
  | _, 0, _, le => ⟨0, [], .error (le.getD .MaxRetriesExceeded)⟩
  | attempt, r + 1, d, le =>
    let pre : List Nat := if attempt > 0 then [d] else []
    let d1 : Nat := if attempt > 0 then 2 * d else d
    match send_request (o attempt) with
    | .ok _ => ⟨1, pre, .ok ()⟩
    | .error e =>
      match e with
      | .AuthError m => ⟨1, pre, .error (.AuthError m)⟩
      | _ =>
        let d2 : Nat :=
          match rateLimitDelay (.error e) with
          | some t => t
          | none => d1
        let rest := uploadGo o (attempt + 1) r d2 (some e)
        ⟨rest.requests + 1, pre ++ rest.sleeps, rest.result⟩

/-- Source `Uploader::upload` (lines 89–133): serialize the payload (a failure is a
`SerializationError` with no request made), then run the retry loop with
budget `max_retries + 1` and the 1-second initial delay.  The payload itself
only matters through its serialization outcome, so it is abstracted to
`serde`. -/
def upload (cfg : UploaderConfig) (serde : Except String Unit)
    (o : Nat → AttemptOutcome) : UploadTrace :=
  match serde with
  | .error m => ⟨0, [], .error (.SerializationError m)⟩
  | .ok () => uploadGo o 0 (cfg.max_retries + 1) initialRetryDelaySecs none

/-- The value of `retry_delay` after the loop has processed attempt `i`
(equivalently: the duration slept just before attempt `i + 1`, when that
attempt happens): the server-supplied rate-limit delay of attempt `i` if any,
otherwise double the previous value, starting from the 1-second initial
delay.  This is a derived description of the loop state, used by the lemmas
below. -/
def dAfter (o : Nat → AttemptOutcome) : Nat → Nat
  | 0 => (rateLimitDelay (send_request (o 0))).getD initialRetryDelaySecs
  | i + 1 => (rateLimitDelay (send_request (o (i + 1)))).getD (2 * dAfter o i)

theorem uploadGo_ok (o : Nat → AttemptOutcome) (a r d : Nat)
    (le : Option UploaderError) (hx : send_request (o a) = .ok ()) :
    uploadGo o a (r + 1) d le = ⟨1, if a > 0 then [d] else [], .ok ()⟩ := by
  simp only [uploadGo, hx]

theorem uploadGo_auth (o : Nat → AttemptOutcome) (a r d : Nat)
    (le : Option UploaderError) (msg : String)
    (hx : send_request (o a) = .error (.AuthError msg)) :
    uploadGo o a (r + 1) d le
      = ⟨1, if a > 0 then [d] else [], .error (.AuthError msg)⟩ := by
  simp only [uploadGo, hx]

theorem uploadGo_fail (o : Nat → AttemptOutcome) (a r d : Nat)
    (le : Option UploaderError) (e : UploaderError)
    (hx : send_request (o a) = .error e) (hne : ∀ m, e ≠ .AuthError m) :
    uploadGo o a (r + 1) d le =
      { requests :=
          (uploadGo o (a + 1) r
            ((rateLimitDelay (.error e)).getD (if a > 0 then 2 * d else d))
            (some e)).requests + 1
        sleeps := (if a > 0 then [d] else []) ++
          (uploadGo o (a + 1) r
            ((rateLimitDelay (.error e)).getD (if a > 0 then 2 * d else d))
            (some e)).sleeps
        result :=
          (uploadGo o (a + 1) r
            ((rateLimitDelay (.error e)).getD (if a > 0 then 2 * d else d))
            (some e)).result } := by
  cases e with
  | AuthError m => exact absurd rfl (hne m)
  | RateLimited ra =>
    cases ra <;> simp only [uploadGo, hx, rateLimitDelay, Option.getD]
  | _ => simp only [uploadGo, hx, rateLimitDelay, Option.getD]

/-- A rate-limited outcome with a delay is a retryable failure. -/
theorem isRetryableFailure_of_rateLimitDelay (x : Except UploaderError Unit)
    (T : Nat) (h : rateLimitDelay x = some T) : isRetryableFailure x = true := by
  cases x with
  | ok u => simp [rateLimitDelay] at h
  | error e => cases e <;> simp_all [rateLimitDelay, isRetryableFailure]

/-- A retryable failure is an `.error e` with `e` not an auth error. -/
theorem retryable_elim (x : Except UploaderError Unit)
    (h : isRetryableFailure x = true) :
    ∃ e, x = .error e ∧ ∀ m, e ≠ UploaderError.AuthError m := by
  cases x with
  | ok u => simp [isRetryableFailure] at h
  | error e => exact ⟨e, rfl, by cases e <;> simp_all [isRetryableFailure]⟩

/-- If every attempt in the remaining budget fails retryably, the loop
performs every remaining iteration and returns the outcome of the last
attempt. -/
theorem uploadGo_all_fail (o : Nat → AttemptOutcome) :
    ∀ (r a d : Nat) (le : Option UploaderError), 0 < r →
      (∀ i, a ≤ i → i < a + r → isRetryableFailure (send_request (o i)) = true) →
      (uploadGo o a r d le).requests = r ∧
        (uploadGo o a r d le).result = send_request (o (a + r - 1)) := by
  intro r
  induction r with
  | zero => intro a d le h; omega
  | succ r ih =>
    intro a d le _ hfail
    have ha : isRetryableFailure (send_request (o a)) = true :=
      hfail a le_rfl (by omega)
    obtain ⟨e, hx, hne⟩ := retryable_elim _ ha
    rw [uploadGo_fail o a r d le e hx hne]
    rcases Nat.eq_zero_or_pos r with hr | hr
    · subst hr
      have harg : a + (0 + 1) - 1 = a := by omega
      constructor
      · simp only [uploadGo]
      · simp only [uploadGo, Option.getD_some, harg, hx]
    · have := ih (a + 1) ((rateLimitDelay (.error e)).getD (if a > 0 then 2 * d else d))
        (some e) hr (fun i h1 h2 => hfail i (by omega) (by omega))
      have harg : a + 1 + r - 1 = a + (r + 1) - 1 := by omega
      refine ⟨by rw [this.1], ?_⟩
      rw [this.2, harg]

/-- If attempts `a, …, a + j - 1` fail retryably and attempt `a + j` fails
with an auth error, the loop performs exactly `j + 1` iterations and returns
the auth error. -/
theorem uploadGo_auth_at (o : Nat → AttemptOutcome) (msg : String) :
    ∀ (j a r d : Nat) (le : Option UploaderError), j < r →
      (∀ i, a ≤ i → i < a + j → isRetryableFailure (send_request (o i)) = true) →
      send_request (o (a + j)) = .error (.AuthError msg) →
      (uploadGo o a r d le).requests = j + 1 ∧
        (uploadGo o a r d le).result = .error (.AuthError msg) := by
  intro j
  induction j with
  | zero =>
    intro a r d le hr _ hauth
    obtain ⟨r', rfl⟩ : ∃ r', r = r' + 1 := ⟨r - 1, by omega⟩
    rw [uploadGo_auth o a r' d le msg (by simpa using hauth)]
    exact ⟨rfl, rfl⟩
  | succ j ih =>
    intro a r d le hr hfail hauth
    obtain ⟨r', rfl⟩ : ∃ r', r = r' + 1 := ⟨r - 1, by omega⟩
    have ha : isRetryableFailure (send_request (o a)) = true :=
      hfail a le_rfl (by omega)
    obtain ⟨e, hx, hne⟩ := retryable_elim _ ha
    rw [uploadGo_fail o a r' d le e hx hne]
    have := ih (a + 1) r'
      ((rateLimitDelay (.error e)).getD (if a > 0 then 2 * d else d)) (some e)
      (by omega) (fun i h1 h2 => hfail i (by omega) (by omega))
      (by rw [show a + 1 + j = a + (j + 1) by omega]; exact hauth)
    exact ⟨by rw [this.1], this.2⟩

/-- Sleeps of the loop from attempt `a ≥ 1` with the delay state
`dAfter o (a - 1)`: as long as attempts keep failing retryably, the `i`-th
sleep (0-based, counting from attempt `a`) is `dAfter o (a - 1 + i)`. -/
theorem uploadGo_sleeps (o : Nat → AttemptOutcome) :
    ∀ (m a r : Nat) (le : Option UploaderError), 1 ≤ a → m ≤ r →
      (∀ i, a ≤ i → i + 1 < a + m → isRetryableFailure (send_request (o i)) = true) →
      ((uploadGo o a r (dAfter o (a - 1)) le).sleeps).take m =
        (List.range m).map (fun i => dAfter o (a - 1 + i)) := by
  intro m
  induction m with
  | zero => intro a r le _ _ _; simp
  | succ m ih =>
    intro a r le ha hm hfail
    obtain ⟨r', rfl⟩ : ∃ r', r = r' + 1 := ⟨r - 1, by omega⟩
    have h0 : 0 < a := by omega
    have hpre : (if a > 0 then [dAfter o (a - 1)] else []) = [dAfter o (a - 1)] := by
      simp [h0]
    rcases Nat.eq_zero_or_pos m with hm0 | hm1
    · subst hm0
      cases hsr : send_request (o a) with
      | ok u =>
        cases u
        rw [uploadGo_ok o a r' _ le hsr, hpre]
        simp [List.range_succ]
      | error e =>
        rcases Classical.em (∃ m', e = UploaderError.AuthError m') with ⟨m', rfl⟩ | hna
        · rw [uploadGo_auth o a r' _ le m' hsr, hpre]
          simp [List.range_succ]
        · have hne : ∀ m', e ≠ UploaderError.AuthError m' := by
            intro m' h
            exact hna ⟨m', h⟩
          rw [uploadGo_fail o a r' _ le e hsr hne, hpre]
          simp [List.range_succ]
    · have hfa : isRetryableFailure (send_request (o a)) = true :=
        hfail a le_rfl (by omega)
      obtain ⟨e, hx, hne⟩ := retryable_elim _ hfa
      rw [uploadGo_fail o a r' _ le e hx hne]
      have hd2 : (rateLimitDelay (Except.error e)).getD
          (if a > 0 then 2 * dAfter o (a - 1) else dAfter o (a - 1))
          = dAfter o a := by
        obtain ⟨a', rfl⟩ : ∃ a', a = a' + 1 := ⟨a - 1, by omega⟩
        simp only [dAfter, ← hx, Nat.add_sub_cancel]
        simp
      have := ih (a + 1) r' (some e) (by omega) (by omega)
        (fun i h1 h2 => hfail i (by omega) (by omega))
      rw [Nat.add_sub_cancel] at this
      rw [hpre]
      simp only [List.cons_append, List.nil_append, List.take_succ_cons, hd2, this]
      rw [List.range_succ_eq_map]
      simp only [List.map_cons, List.map_map, Nat.add_zero]
      congr 1
      apply List.map_congr_left
      intro i _
      simp only [Function.comp_apply]
      congr 1
      omega

/-- Top-level sleeps description of `upload`: if the first `m` attempts fail
retryably (`m` within the retry budget), the first `m` slept delays are
`dAfter o 0, …, dAfter o (m - 1)`. -/
theorem upload_sleeps (cfg : UploaderConfig) (o : Nat → AttemptOutcome) (m : Nat)
    (hm : m ≤ cfg.max_retries)
    (hfail : ∀ i, i < m → isRetryableFailure (send_request (o i)) = true) :
    ((upload cfg (.ok ()) o).sleeps).take m = (List.range m).map (dAfter o) := by
  cases m with
  | zero => simp
  | succ k =>
    have h0 := hfail 0 (by omega)
    obtain ⟨e, hx, hne⟩ := retryable_elim _ h0
    show ((uploadGo o 0 (cfg.max_retries + 1) initialRetryDelaySecs none).sleeps).take
        (k + 1) = _
    rw [uploadGo_fail o 0 cfg.max_retries initialRetryDelaySecs none e hx hne]
    have hd : (rateLimitDelay (Except.error e)).getD
        (if 0 > 0 then 2 * initialRetryDelaySecs else initialRetryDelaySecs)
        = dAfter o 0 := by
      simp [dAfter, ← hx]
    have hrest := uploadGo_sleeps o (k + 1) 1 cfg.max_retries (some e) le_rfl hm
      (fun i h1 h2 => hfail i (by omega))
    simp only [Nat.sub_self] at hrest
    simp only [hd]
    simp only [gt_iff_lt, lt_irrefl, if_false, List.nil_append]
    rw [hrest]
    apply List.map_congr_left
    intro i _
    simp

/-- If no attempt up to `i` was rate-limited with a server delay, the delay
state after attempt `i` is the pure exponential value `base * 2 ^ i`. -/
theorem dAfter_pure (o : Nat → AttemptOutcome) (i : Nat)
    (h : ∀ j, j ≤ i → rateLimitDelay (send_request (o j)) = none) :
    dAfter o i = initialRetryDelaySecs * 2 ^ i := by
  induction i with
  | zero => simp [dAfter, h 0 le_rfl]
  | succ i ih =>
    rw [dAfter, h (i + 1) le_rfl, Option.getD_none, ih (fun j hj => h j (by omega))]
    ring

/-- If attempt `j` was rate-limited with server delay `T`, the delay state
after attempt `j` is exactly `T`. -/
theorem dAfter_rl (o : Nat → AttemptOutcome) (j T : Nat)
    (hrl : rateLimitDelay (send_request (o j)) = some T) : dAfter o j = T := by
  cases j <;> simp [dAfter, hrl]

/-- After a rate-limit override at attempt `j`, with no further overrides up
to attempt `j + m`, the delay state doubles from `T`. -/
theorem dAfter_rl_doubles (o : Nat → AttemptOutcome) (j T m : Nat)
    (hrl : rateLimitDelay (send_request (o j)) = some T)
    (hafter : ∀ i, j < i → i ≤ j + m → rateLimitDelay (send_request (o i)) = none) :
    ∀ i, i ≤ m → dAfter o (j + i) = T * 2 ^ i := by
  intro i
  induction i with
  | zero => intro _; simpa using dAfter_rl o j T hrl
  | succ i ih =>
    intro him
    have hstep : dAfter o (j + i + 1) = 2 * dAfter o (j + i) := by
      rw [dAfter, hafter (j + i + 1) (by omega) (by omega), Option.getD_none]
    rw [show j + (i + 1) = j + i + 1 by omega, hstep, ih (by omega)]
    ring

/-- C1: if every attempt (there are `max_retries + 1` of them) fails with a
retryable error — server error, rate limit, or transport failure, i.e.
anything but an auth error — then `upload` sends exactly `max_retries + 1`
requests and returns the error observed on the last attempt. -/
theorem upload_retry_budget_exhaustion (cfg : UploaderConfig)
    (o : Nat → AttemptOutcome)
    (hfail : ∀ i, i ≤ cfg.max_retries → isRetryableFailure (send_request (o i)) = true) :
    (upload cfg (.ok ()) o).requests = cfg.max_retries + 1 ∧
      (upload cfg (.ok ()) o).result = send_request (o cfg.max_retries) := by
  have h := uploadGo_all_fail o (cfg.max_retries + 1) 0 initialRetryDelaySecs none
    (by omega) (fun i h1 h2 => hfail i (by omega))
  simpa [upload] using h

theorem upload_retry_budget_exhaustion_witness :
    (upload (UploaderConfig.new "https://api.example/ingest" "k") (.ok ())
        (fun _ => .response ⟨500, none, some "boom"⟩)).requests = 4 ∧
      (upload (UploaderConfig.new "https://api.example/ingest" "k") (.ok ())
        (fun _ => .response ⟨500, none, some "boom"⟩)).result
        = .error (.ServerError 500 "boom") := by
  have h := upload_retry_budget_exhaustion
    (UploaderConfig.new "https://api.example/ingest" "k")
    (fun _ => .response ⟨500, none, some "boom"⟩) (fun i _ => rfl)
  exact ⟨h.1, h.2.trans (by decide)⟩

/-- C2: if attempts `0, …, j - 1` fail retryably and attempt `j` fails with
an authentication error, `upload` returns that auth error immediately after
exactly `j + 1` requests; in particular an auth failure on the first attempt
means exactly one request. -/
theorem upload_auth_abort (cfg : UploaderConfig) (o : Nat → AttemptOutcome)
    (j : Nat) (msg : String) (hj : j ≤ cfg.max_retries)
    (hfail : ∀ i, i < j → isRetryableFailure (send_request (o i)) = true)
    (hauth : send_request (o j) = .error (.AuthError msg)) :
    (upload cfg (.ok ()) o).requests = j + 1 ∧
      (upload cfg (.ok ()) o).result = .error (.AuthError msg) := by
  have h := uploadGo_auth_at o msg j 0 (cfg.max_retries + 1) initialRetryDelaySecs
    none (by omega) (fun i h1 h2 => hfail i (by omega)) (by simpa using hauth)
  simpa [upload] using h

theorem upload_auth_abort_witness :
    (upload (UploaderConfig.new "https://api.example/ingest" "k") (.ok ())
        (fun _ => .response ⟨401, none, some "bad key"⟩)).requests = 1 ∧
      (upload (UploaderConfig.new "https://api.example/ingest" "k") (.ok ())
        (fun _ => .response ⟨401, none, some "bad key"⟩)).result
        = .error (.AuthError "bad key") :=
  upload_auth_abort (UploaderConfig.new "https://api.example/ingest" "k")
    (fun _ => .response ⟨401, none, some "bad key"⟩) 0 "bad key"
    (by decide) (fun i hi => absurd hi (by omega)) (by decide)

/-- The response classification stated by the (amended) spec: exactly 200,
201 and 202 are success; 401 and 403 are an authentication error carrying
the body text; 429 is rate-limited carrying the parsed whole-second
`Retry-After` value when present; every other status — including 2xx
statuses other than 200/201/202, such as 204 — is a generic server error
carrying the numeric status and the body text. -/
def classifySpec (r : HttpResponse) : Except UploaderError Unit :=
  if r.status ∈ ([200, 201, 202] : List Nat) then .ok ()
  else if r.status ∈ ([401, 403] : List Nat) then .error (.AuthError (r.body.getD ""))
  else if r.status = 429 then .error (.RateLimited (r.retryAfterHeader.bind parse_u64))
  else .error (.ServerError r.status (r.body.getD ""))

/-- C3 counterexample: 204 is a 2xx status, yet `send_request` does not
classify it as success — it becomes a generic server error. -/
theorem send_request_204_not_success :
    (200 ≤ 204 ∧ 204 < 300) ∧
      send_request (.response ⟨204, none, some ""⟩) ≠ .ok () ∧
      send_request (.response ⟨204, none, some ""⟩)
        = .error (.ServerError 204 "") := by
  decide

/-- C3 (amended): for every HTTP response, `send_request` classifies it
exactly as `classifySpec` does — 200/201/202 success, 401/403 auth error,
429 rate-limited with the optional whole-second `Retry-After`, and every
other status a generic server error with status and body text. -/
theorem send_request_classification (r : HttpResponse) :
    send_request (.response r) = classifySpec r := by
  rcases r with ⟨s, h, b⟩
  simp only [send_request, classifySpec, retryAfterSecs, List.mem_cons,
    List.not_mem_nil, or_false]
  split <;> simp_all

/-- C4: when the first `N` attempts (`N ≤ max_retries`) all fail retryably
and none of them is a rate limit with a server-supplied delay, the delays
slept before retries `1, …, N` form the doubling schedule
`base, 2·base, 4·base, …` with `base = 1` second: the sleep before retry
`k + 1` is `base * 2 ^ k`. -/
theorem upload_backoff_doubling (cfg : UploaderConfig) (o : Nat → AttemptOutcome)
    (N : Nat) (hN : N ≤ cfg.max_retries)
    (hfail : ∀ i, i < N → isRetryableFailure (send_request (o i)) = true)
    (hnorl : ∀ i, i < N → rateLimitDelay (send_request (o i)) = none) :
    ((upload cfg (.ok ()) o).sleeps).take N =
      (List.range N).map (fun k => initialRetryDelaySecs * 2 ^ k) := by
  rw [upload_sleeps cfg o N hN hfail]
  apply List.map_congr_left
  intro i hi
  rw [List.mem_range] at hi
  exact dAfter_pure o i (fun j hj => hnorl j (by omega))

theorem upload_backoff_doubling_witness :
    ((upload (UploaderConfig.new "https://api.example/ingest" "k") (.ok ())
        (fun _ => .transportError "net")).sleeps).take 3 = [1, 2, 4] := by
  have h := upload_backoff_doubling
    (UploaderConfig.new "https://api.example/ingest" "k")
    (fun _ => .transportError "net") 3 (by decide)
    (fun i _ => rfl) (fun i _ => rfl)
  exact h.trans (by decide)

/-- C5: if attempt `j` fails rate-limited with a server-supplied delay of `T`
seconds and a further attempt remains in the budget (`j + 1 ≤ max_retries`),
the delay slept immediately before attempt `j + 1` is exactly `T`,
regardless of the backoff value accumulated so far. -/
theorem upload_rate_limit_override (cfg : UploaderConfig)
    (o : Nat → AttemptOutcome) (j T : Nat)
    (hbudget : j + 1 ≤ cfg.max_retries)
    (hfail : ∀ i, i < j → isRetryableFailure (send_request (o i)) = true)
    (hrl : rateLimitDelay (send_request (o j)) = some T) :
    ((upload cfg (.ok ()) o).sleeps).get? j = some T := by
  have hfail' : ∀ i, i < j + 1 → isRetryableFailure (send_request (o i)) = true := by
    intro i hi
    rcases Nat.lt_or_ge i j with hlt | hge
    · exact hfail i hlt
    · have : i = j := by omega
      subst this
      exact isRetryableFailure_of_rateLimitDelay _ T hrl
  have hs := upload_sleeps cfg o (j + 1) hbudget hfail'
  have hj : (((upload cfg (.ok ()) o).sleeps).take (j + 1)).get? j
      = some (dAfter o j) := by
    rw [hs]
    simp [List.get?_map, List.get?_range (show j < j + 1 by omega)]
  rw [List.get?_take (show j < j + 1 by omega)] at hj
  rw [hj, dAfter_rl o j T hrl]

theorem upload_rate_limit_override_witness :
    ((upload (UploaderConfig.new "https://api.example/ingest" "k") (.ok ())
        (fun i => if i = 0 then .response ⟨429, some "7", some ""⟩
          else .response ⟨500, none, some "busy"⟩)).sleeps).get? 0 = some 7 :=
  upload_rate_limit_override (UploaderConfig.new "https://api.example/ingest" "k")
    (fun i => if i = 0 then .response ⟨429, some "7", some ""⟩
      else .response ⟨500, none, some "busy"⟩) 0 7
    (by decide) (fun i hi => absurd hi (by omega)) (by decide)

/-- C10: once attempt `j` fails rate-limited with server delay `T`, the
server value permanently replaces the backoff accumulator: if the following
attempts keep failing retryably with no further server delay, the sleeps
before attempts `j + 1, j + 2, …` are `T, 2T, 4T, …` — the sleep before
attempt `j + 1 + i` is `T * 2 ^ i`. -/
theorem upload_rate_limit_persists (cfg : UploaderConfig)
    (o : Nat → AttemptOutcome) (j m T : Nat)
    (hbudget : j + m + 1 ≤ cfg.max_retries)
    (hfail : ∀ i, i < j → isRetryableFailure (send_request (o i)) = true)
    (hrl : rateLimitDelay (send_request (o j)) = some T)
    (hafter : ∀ i, j < i → i ≤ j + m →
      isRetryableFailure (send_request (o i)) = true ∧
        rateLimitDelay (send_request (o i)) = none) :
    ∀ i, i ≤ m → ((upload cfg (.ok ()) o).sleeps).get? (j + i) = some (T * 2 ^ i) := by
  intro i him
  have hfail' : ∀ i', i' < j + m + 1 → isRetryableFailure (send_request (o i')) = true := by
    intro i' hi'
    rcases Nat.lt_or_ge i' j with hlt | hge
    · exact hfail i' hlt
    · rcases Nat.eq_or_lt_of_le hge with heq | hgt
      · subst heq
        exact isRetryableFailure_of_rateLimitDelay _ T hrl
      · exact (hafter i' hgt (by omega)).1
  have hs := upload_sleeps cfg o (j + m + 1) hbudget hfail'
  have hji : (((upload cfg (.ok ()) o).sleeps).take (j + m + 1)).get? (j + i)
      = some (dAfter o (j + i)) := by
    rw [hs, List.get?_map, List.get?_range (show j + i < j + m + 1 by omega)]
    rfl
  rw [List.get?_take (show j + i < j + m + 1 by omega)] at hji
  rw [hji, dAfter_rl_doubles o j T m hrl (fun i' h1 h2 => (hafter i' h1 h2).2) i him]

theorem upload_rate_limit_persists_witness :
    ((upload (UploaderConfig.new "https://api.example/ingest" "k") (.ok ())
        (fun i => if i = 0 then .response ⟨429, some "7", some ""⟩
          else .response ⟨500, none, some "busy"⟩)).sleeps).get? 1 = some 14 := by
  have h := upload_rate_limit_persists
    (UploaderConfig.new "https://api.example/ingest" "k")
    (fun i => if i = 0 then .response ⟨429, some "7", some ""⟩
      else .response ⟨500, none, some "busy"⟩) 0 2 7
    (by decide) (fun i hi => absurd hi (by omega)) (by decide)
    (fun i h1 h2 => by
      have : ¬ (i = 0) := by omega
      simp only [this, if_false]
      exact ⟨rfl, rfl⟩) 1 (by omega)
  exact h.trans (by decide)

/-- Errors of the collector, mirroring `enum CollectorError` in
`src/collector/mod.rs`. -/
inductive CollectorError where
  | ConnectionError (m : String)
  | QueryError (m : String)
  | PermissionError (m : String)
  | UnsupportedVersion (m : String)
  | UnsupportedDatabase (m : String)
  | DetectionError (m : String)
  | InternalError (m : String)
  deriving Repr, DecidableEq

/-- Errors of the scheduler, mirroring `enum SchedulerError` in
`src/scheduler/mod.rs`. -/
inductive SchedulerError where
  | CollectionError (e : CollectorError)
  | UploadError (e : UploaderError)
  | Stopped
  deriving Repr, DecidableEq

/-- Observable trace of one `collect_and_upload` cycle: how often
`collector.collect()` and `uploader.upload()` were invoked, and whether a
failure was logged at error severity. -/
structure CycleTrace where
  collectCalls : Nat
  uploadCalls : Nat
  errorLogged : Bool
  deriving Repr, DecidableEq

/-- Source `Scheduler::collect_and_upload` (`src/scheduler/mod.rs` lines 87–118)
over abstract per-cycle results: collect; on success upload; a failure of
either stage is only logged (`error!`) — the function returns `()` either
way, never an error.  The payload type is abstract. -/
def collect_and_upload {P : Type} (cr : Except CollectorError P)
    (ur : P → Except UploaderError Unit) : CycleTrace :=
  match cr with
  | .ok p =>
    match ur p with
    | .ok () => ⟨1, 1, false⟩
    | .error _ => ⟨1, 1, true⟩
  | .error _ => ⟨1, 0, true⟩

/-- One wakeup of the `tokio::select!` in `Scheduler::run`: either the
interval ticked, or the shutdown watch channel reported a change to
`value`. -/
inductive LoopEvent where
  | tick
  | shutdownChanged (value : Bool)
  deriving Repr, DecidableEq

/-- Whether a loop event is an interval tick. -/
def isTick : LoopEvent → Bool
  | .tick => true
  | _ => false

/-- Observable trace of one `run` call: the cycles performed, and the value
returned by `run` (`none` models a loop still running when the modelled
event schedule ends). -/
structure RunTrace where
  cycles : List CycleTrace
  result : Option (Except SchedulerError Unit)
  deriving Repr, DecidableEq

/-- The `loop { tokio::select! { ... } }` of `Scheduler::run` (lines 71–84)
over an abstract schedule of wakeups: a tick runs one cycle (the `n`-th
collect uses `collectAt n`); a shutdown change to `true` returns `Ok(())`
at once, a change to `false` just re-enters the loop. -/
def runLoop {P : Type} (collectAt : Nat → Except CollectorError P)
    (ur : P → Except UploaderError Unit) :
    List LoopEvent → Nat → List CycleTrace → RunTrace
  | [], _, acc => ⟨acc, none⟩
  | .tick :: rest, n, acc =>
    runLoop collectAt ur rest (n + 1) (acc ++ [collect_and_upload (collectAt n) ur])
  | .shutdownChanged b :: rest, n, acc =>
    if b then ⟨acc, some (.ok ())⟩ else runLoop collectAt ur rest n acc

/-- Source `Scheduler::run` (lines 55–84) after the startup jitter: one immediate
`collect_and_upload`, then the select loop. -/
def run {P : Type} (collectAt : Nat → Except CollectorError P)
    (ur : P → Except UploaderError Unit) (events : List LoopEvent) : RunTrace :=
  runLoop collectAt ur events 1 [collect_and_upload (collectAt 0) ur]

/-- Observable trace of one `run_once` call. -/
structure RunOnceTrace where
  collectCalls : Nat
  uploadCalls : Nat
  stdout : Option String
  result : Except SchedulerError Unit
  deriving Repr, DecidableEq

/-- Source `Scheduler::run_once` (lines 121–137): exactly one `collect()`; a
collection error is propagated (via `#[from]` as
`SchedulerError::CollectionError`); on success the payload is
pretty-printed to stdout when `to_json_pretty` succeeds (a serialization
failure is only logged as a warning and still yields `Ok(())`).  The
uploader `ur` is in scope (the scheduler owns one) but never invoked. -/
def run_once {P : Type} (cr : Except CollectorError P)
    (ur : P → Except UploaderError Unit)
    (toJsonPretty : P → Except String String) : RunOnceTrace :=
  match cr with
  | .error e => ⟨1, 0, none, .error (.CollectionError e)⟩
  | .ok p =>
    match toJsonPretty p with
    | .ok json => ⟨1, 0, some json, .ok ()⟩
    | .error _ => ⟨1, 0, none, .ok ()⟩

/-- The select loop never returns an error, whatever the cycle outcomes. -/
theorem runLoop_no_error {P : Type} (collectAt : Nat → Except CollectorError P)
    (ur : P → Except UploaderError Unit) :
    ∀ (events : List LoopEvent) (n : Nat) (acc : List CycleTrace)
      (err : SchedulerError),
      (runLoop collectAt ur events n acc).result ≠ some (.error err) := by
  intro events
  induction events with
  | nil => intro n acc err h; simp [runLoop] at h
  | cons e rest ih =>
    intro n acc err h
    cases e with
    | tick => exact ih _ _ err h
    | shutdownChanged b =>
      cases b with
      | true => simp [runLoop] at h
      | false => exact ih _ _ err (by simpa [runLoop] using h)

/-- Reaching the first observed `shutdownChanged true`: the loop returns
`Ok(())` and the cycles are the accumulated ones plus one per tick observed
before the signal — nothing after the signal contributes. -/
theorem runLoop_shutdown {P : Type} (collectAt : Nat → Except CollectorError P)
    (ur : P → Except UploaderError Unit) :
    ∀ (pre post : List LoopEvent) (n : Nat) (acc : List CycleTrace),
      (∀ e ∈ pre, e ≠ LoopEvent.shutdownChanged true) →
      (runLoop collectAt ur (pre ++ LoopEvent.shutdownChanged true :: post) n
          acc).result = some (.ok ()) ∧
        (runLoop collectAt ur (pre ++ LoopEvent.shutdownChanged true :: post) n
          acc).cycles.length = acc.length + pre.countP isTick := by
  intro pre
  induction pre with
  | nil =>
    intro post n acc _
    simp [runLoop]
  | cons e rest ih =>
    intro post n acc hpre
    cases e with
    | tick =>
      have := ih post (n + 1) (acc ++ [collect_and_upload (collectAt n) ur])
        (fun e he => hpre e (List.mem_cons_of_mem _ he))
      refine ⟨this.1, ?_⟩
      rw [List.cons_append]
      show (runLoop collectAt ur _ (n + 1) _).cycles.length = _
      rw [this.2]
      simp [List.countP_cons, isTick] <;> omega
    | shutdownChanged b =>
      cases b with
      | true => exact absurd rfl (hpre _ (List.mem_cons_self _ _))
      | false =>
        have := ih post n acc (fun e he => hpre e (List.mem_cons_of_mem _ he))
        refine ⟨?_, ?_⟩
        · rw [List.cons_append]
          show (runLoop collectAt ur _ n acc).result = _
          simpa [runLoop] using this.1
        · rw [List.cons_append]
          show (runLoop collectAt ur _ n acc).cycles.length = _
          have h2 := this.2
          simp only [runLoop, if_neg Bool.false_ne_true] at h2 ⊢
          rw [h2]
          simp [List.countP_cons, isTick]

/-- C6: cycle failures are absorbed.  Every `collect_and_upload` performs
its one `collect()` and returns (no error escapes); when collect fails the
uploader is not invoked in that cycle; and `run` never returns an error,
whatever the collector/uploader outcomes and the loop schedule. -/
theorem scheduler_absorbs_cycle_failures {P : Type}
    (cr : Except CollectorError P) (ur : P → Except UploaderError Unit)
    (collectAt : Nat → Except CollectorError P) (events : List LoopEvent) :
    (collect_and_upload cr ur).collectCalls = 1 ∧
      (∀ e, cr = Except.error e → (collect_and_upload cr ur).uploadCalls = 0) ∧
      ∀ err : SchedulerError,
        (run collectAt ur events).result ≠ some (.error err) := by
  refine ⟨?_, ?_, ?_⟩
  · cases cr with
    | ok p => cases hu : ur p with
      | ok u => cases u; simp [collect_and_upload, hu]
      | error e => simp [collect_and_upload, hu]
    | error e => simp [collect_and_upload]
  · intro e he
    subst he
    simp [collect_and_upload]
  · intro err
    exact runLoop_no_error collectAt ur events 1 _ err

theorem scheduler_absorbs_cycle_failures_witness :
    (collect_and_upload (Except.error (.QueryError "q"))
        (fun _ : Unit => .error (.MaxRetriesExceeded))).collectCalls = 1 ∧
      (∀ e, (Except.error (.QueryError "q") : Except CollectorError Unit)
          = Except.error e →
        (collect_and_upload (Except.error (.QueryError "q"))
          (fun _ : Unit => .error (.MaxRetriesExceeded))).uploadCalls = 0) ∧
      ∀ err : SchedulerError,
        (run (fun _ => Except.error (.QueryError "q"))
            (fun _ : Unit => .error (.MaxRetriesExceeded))
            [LoopEvent.tick, LoopEvent.shutdownChanged true]).result
          ≠ some (.error err) :=
  scheduler_absorbs_cycle_failures (Except.error (.QueryError "q"))
    (fun _ : Unit => .error (.MaxRetriesExceeded))
    (fun _ => Except.error (.QueryError "q"))
    [LoopEvent.tick, LoopEvent.shutdownChanged true]

/-- C7: once the loop observes the shutdown signal at `true`, it returns
`Ok(())`, and the cycles performed are exactly the initial immediate one
plus one per tick observed before the signal — no event after the signal
(the arbitrary `post`) ever starts a cycle. -/
theorem run_shutdown_halts {P : Type} (collectAt : Nat → Except CollectorError P)
    (ur : P → Except UploaderError Unit) (pre post : List LoopEvent)
    (hpre : ∀ e ∈ pre, e ≠ LoopEvent.shutdownChanged true) :
    (run collectAt ur (pre ++ LoopEvent.shutdownChanged true :: post)).result
        = some (.ok ()) ∧
      (run collectAt ur (pre ++ LoopEvent.shutdownChanged true :: post)).cycles.length
        = 1 + pre.countP isTick := by
  have h := runLoop_shutdown collectAt ur pre post 1
    [collect_and_upload (collectAt 0) ur] hpre
  exact ⟨h.1, by rw [run, h.2]; simp⟩

theorem run_shutdown_halts_witness :
    (run (fun _ => Except.ok ()) (fun _ : Unit => .ok ())
        ([LoopEvent.tick, LoopEvent.shutdownChanged false]
          ++ LoopEvent.shutdownChanged true :: [LoopEvent.tick, LoopEvent.tick])).result
        = some (.ok ()) ∧
      (run (fun _ => Except.ok ()) (fun _ : Unit => .ok ())
        ([LoopEvent.tick, LoopEvent.shutdownChanged false]
          ++ LoopEvent.shutdownChanged true :: [LoopEvent.tick, LoopEvent.tick])).cycles.length
        = 2 := by
  have h := run_shutdown_halts (fun _ => Except.ok ()) (fun _ : Unit => .ok ())
    [LoopEvent.tick, LoopEvent.shutdownChanged false]
    [LoopEvent.tick, LoopEvent.tick] (by decide)
  exact ⟨h.1, h.2.trans (by decide)⟩

/-- C9: `run_once` calls `collect()` exactly once and never invokes the
uploader; a collection failure propagates as `CollectionError`; on
collection success, when serialization succeeds the pretty JSON is printed
to stdout and `Ok(())` is returned. -/
theorem run_once_spec {P : Type} (cr : Except CollectorError P)
    (ur : P → Except UploaderError Unit) (tj : P → Except String String) :
    (run_once cr ur tj).collectCalls = 1 ∧
      (run_once cr ur tj).uploadCalls = 0 ∧
      (∀ e, cr = Except.error e →
        (run_once cr ur tj).result = .error (.CollectionError e)) ∧
      ∀ p json, cr = Except.ok p → tj p = .ok json →
        (run_once cr ur tj).stdout = some json ∧
          (run_once cr ur tj).result = .ok () := by
  refine ⟨?_, ?_, ?_, ?_⟩
  · cases cr with
    | ok p => cases htj : tj p <;> simp [run_once, htj]
    | error e => simp [run_once]
  · cases cr with
    | ok p => cases htj : tj p <;> simp [run_once, htj]
    | error e => simp [run_once]
  · intro e he
    subst he
    simp [run_once]
  · intro p json hp htj
    subst hp
    simp [run_once, htj]

theorem run_once_spec_witness :
    (run_once (Except.ok ()) (fun _ : Unit => .ok ())
        (fun _ => .ok "payload-json")).collectCalls = 1 ∧
      (run_once (Except.ok ()) (fun _ : Unit => .ok ())
        (fun _ => .ok "payload-json")).uploadCalls = 0 ∧
      (∀ e, (Except.ok () : Except CollectorError Unit) = Except.error e →
        (run_once (Except.ok ()) (fun _ : Unit => .ok ())
          (fun _ => .ok "payload-json")).result = .error (.CollectionError e)) ∧
      ∀ p json, (Except.ok () : Except CollectorError Unit) = Except.ok p →
        (fun _ : Unit => (Except.ok "payload-json" : Except String String)) p
          = .ok json →
        (run_once (Except.ok ()) (fun _ : Unit => .ok ())
            (fun _ => .ok "payload-json")).stdout = some json ∧
          (run_once (Except.ok ()) (fun _ : Unit => .ok ())
            (fun _ => .ok "payload-json")).result = .ok () :=
  run_once_spec (Except.ok ()) (fun _ : Unit => .ok ())
    (fun _ => .ok "payload-json")

/-- One poll of `tokio::time::interval(p).tick()` with
`MissedTickBehavior::Skip`, in milliseconds: `now` is the instant the
scheduler starts waiting, `deadline` the current tick deadline.  The tick
completes at `max now deadline`; a poll more than 5 ms past the deadline
(tokio's catch-up tolerance) reschedules the next deadline to the first
period boundary after `now`, otherwise the next deadline is one period
after the current one.  Per tokio semantics the very first deadline is the
creation instant, so the first `tick()` completes immediately. -/
def tickSkip (now deadline p : Nat) : Nat × Nat :=
  let fire := max now deadline
  if deadline + 5 < fire then (fire, fire + p - (fire - deadline) % p)
  else (fire, deadline + p)

/-- Start times of the cycles run by the `loop` of `Scheduler::run` (each
cycle taking `c` ms), for `fuel` iterations: poll the interval, run a cycle
at the fire instant, poll again when it ends. -/
def loopCycleStarts : Nat → Nat → Nat → Nat → Nat → List Nat
  | 0, _, _, _, _ => []
  | fuel + 1, now, deadline, p, c =>
    let fd := tickSkip now deadline p
    fd.1 :: loopCycleStarts fuel (fd.1 + c) fd.2 p c

/-- All cycle start times of `Scheduler::run` with startup jitter `j` ms,
interval `p` ms and per-cycle duration `c` ms (first `fuel + 1` cycles):
the interval is created at time `j`, so its first deadline is `j`; the
immediate cycle runs at `j` and the loop starts polling when it ends. -/
def runCycleStarts (j p c fuel : Nat) : List Nat :=
  j :: loopCycleStarts fuel (j + c) j p c

/-- C8 (failing input): with zero jitter, a 10 s interval and 2 s cycles,
the cycle start times are 0 s, 2 s, 10 s, 20 s, 30 s, … — the first loop
poll finds the interval's initial deadline (its creation instant) already
passed, so a second, back-to-back cycle starts about 2 s after start — and
5 cycles, not 4, complete within the first 35 s. -/
theorem run_five_cycles_in_35s :
    runCycleStarts 0 10000 2000 6
        = [0, 2000, 10000, 20000, 30000, 40000, 50000] ∧
      ((runCycleStarts 0 10000 2000 6).filter
        (fun s => decide (s + 2000 ≤ 35000))).length = 5 := by
  decide

end Datapace
